import Mathlib

/-!
Verification of the work-log time tracker (Python: `app/models.py`, `app/db.py`,
`app/cli.py`) against its natural-language specification.

Shallow embedding conventions:
* A timestamp (`datetime`) is an integer count of microseconds; `datetime`
  comparisons and SQLite's lexicographic comparison of ISO-8601 strings of such
  datetimes agree with integer comparison of these counts.
* A calendar date (`date`) is its proleptic-Gregorian ordinal (`date.toordinal`,
  an integer; ordinal 1 = 0001-01-01, a Monday, so Python's
  `date.weekday()` is `(ordinal - 1) % 7`).
* `datetime.combine(day, t)` is `day * usPerDay + t` where `t` is the
  time-of-day offset in microseconds (`datetime.min.time()` = 0,
  `datetime.max.time()` = 86_399_999_999 μs = 23:59:59.999999).
* Durations in hours (Python floats obtained as `seconds / 3600`) are modelled
  as exact rationals; `Decimal` values likewise.
* Python truthiness of an optional number (`None` and `0` falsy) is modelled
  explicitly by `optTruthy`.
-/

/-- Microseconds in one day. -/
def usPerDay : ℤ := 86400000000

/-- Time-of-day offset of `datetime.max.time()` (23:59:59.999999) in μs. -/
def usDayMax : ℤ := 86399999999

/-- `datetime.combine(day, time)`: absolute microsecond timestamp of time-of-day
`t` (μs) on the day with ordinal `d`. -/
def combineDT (d : ℤ) (t : ℤ) : ℤ := d * usPerDay + t

/-- `datetime.date()`: the ordinal of the calendar day containing timestamp
`ts` (floor division, matching Python semantics for negative values too). -/
def dateOfTime (ts : ℤ) : ℤ := ts / usPerDay

/-- `date.weekday()`: Monday = 0 … Sunday = 6.  Ordinal 1 (0001-01-01) is a
Monday. -/
def pyWeekday (d : ℤ) : ℤ := (d - 1) % 7

/-- `app/models.py` `Project`. `hourRate` is the optional `Decimal` rate. -/
structure Project where
  id : ℤ
  name : String
  is_billed_hourly : Bool
  hour_rate : Option ℚ
deriving DecidableEq, Repr

/-- `app/models.py` `WorkEntry`.  `start_time` is always set at creation
(`NOT NULL` in the schema), so it is total here; `end_time = none` is an
active (in-progress) entry. -/
structure WorkEntry where
  id : ℤ
  project_id : ℤ
  description : String
  start_time : ℤ
  end_time : Option ℤ
deriving DecidableEq, Repr

/-- Python truthiness of an optional rational (`None` and `0` are falsy):
models `if self.duration:`, `if entry.duration_hours:`,
`if ... project.hour_rate:`. -/
def optTruthy : Option ℚ → Bool
  | none => false
  | some q => q != 0

/-- `WorkEntry.duration` (μs): `end_time - start_time` when both present
(`start_time` being a `datetime` is always truthy), else `None`. -/
def WorkEntry.duration (e : WorkEntry) : Option ℤ :=
  match e.end_time with
  | some t => some (t - e.start_time)
  | none => none

/-- `WorkEntry.duration_hours`: `self.duration.total_seconds() / 3600` guarded
by `if self.duration:` — a zero `timedelta` is falsy in Python, so a
zero-length completed entry yields `None`, exactly like an absent duration. -/
def WorkEntry.duration_hours (e : WorkEntry) : Option ℚ :=
  match e.duration with
  | some d => if d = 0 then none else some ((d : ℚ) / 1000000 / 3600)
  | none => none

section Sanity

example : (⟨1, 1, "t", 0, some 7200000000⟩ : WorkEntry).duration_hours = some 2 := by
  norm_num [WorkEntry.duration_hours, WorkEntry.duration]

example : (⟨1, 1, "t", 5, some 5⟩ : WorkEntry).duration_hours = none := by
  norm_num [WorkEntry.duration_hours, WorkEntry.duration]

end Sanity

/-! ## Storage layer (`app/db.py`, class `Database`)

The persisted state is the two tables.  Row ids are carried on the objects;
`projects.id` and `work_entries.id` are `INTEGER PRIMARY KEY AUTOINCREMENT`
columns, modelled by the `next_*_id` counters used on insert. -/

structure DB where
  projects : List Project
  work_entries : List WorkEntry
  next_project_id : ℤ
  next_entry_id : ℤ
deriving DecidableEq, Repr

namespace Database

/-- `Database.get_project`: `SELECT * FROM projects WHERE id = ?` (primary-key
lookup, at most one row). -/
def get_project (db : DB) (project_id : ℤ) : Option Project :=
  db.projects.find? (fun p => p.id == project_id)

/-- `Database.get_project_by_name`: `SELECT * FROM projects WHERE name = ?`
(case-sensitive exact match; `name` is `UNIQUE`). -/
def get_project_by_name (db : DB) (name : String) : Option Project :=
  db.projects.find? (fun p => p.name == name)

/-- `Database.get_active_work_entry`:
`SELECT * FROM work_entries WHERE end_time IS NULL` followed by `fetchone()`
(the first matching row in table order, or `None`). -/
def get_active_work_entry (db : DB) : Option WorkEntry :=
  db.work_entries.find? (fun e => e.end_time.isNone)

/-- `Database.create_work_entry`: `INSERT INTO work_entries ...` — the stored
row receives the autoincrement id; returns `cursor.lastrowid`. -/
def create_work_entry (db : DB) (e : WorkEntry) : ℤ × DB :=
  (db.next_entry_id,
   { db with
       work_entries := db.work_entries ++ [{ e with id := db.next_entry_id }]
       next_entry_id := db.next_entry_id + 1 })

/-- `Database.update_work_entry`: `UPDATE work_entries SET ... WHERE id = ?`;
returns `cursor.rowcount > 0`. -/
def update_work_entry (db : DB) (e : WorkEntry) : Bool × DB :=
  (db.work_entries.any (fun x => x.id == e.id),
   { db with work_entries := db.work_entries.map (fun x => if x.id == e.id then e else x) })

/-- `Database.create_project`: `INSERT INTO projects ...` under the `UNIQUE`
constraint on `name` — the insert raises (`sqlite3.IntegrityError`) when a row
with the same name exists, otherwise stores the row with the autoincrement id
and returns it. -/
def create_project (db : DB) (p : Project) : Option (ℤ × DB) :=
  if db.projects.any (fun q => q.name == p.name) then
    none
  else
    some (db.next_project_id,
      { db with
          projects := db.projects ++ [{ p with id := db.next_project_id }]
          next_project_id := db.next_project_id + 1 })

/-- The `WHERE` clause shared by `get_entries_for_day` and
`get_entries_for_week` (`lo`/`hi` are the period bound parameters):

    (e.start_time BETWEEN lo AND hi) OR
    (e.end_time BETWEEN lo AND hi) OR
    (e.start_time < lo AND (e.end_time > hi OR e.end_time IS NULL))

SQL comparisons against a `NULL` `end_time` yield `NULL` (falsy); ISO-8601
strings of datetimes compare lexicographically as the timestamps do. -/
def entryMatchesRange (lo hi : ℤ) (e : WorkEntry) : Bool :=
  (lo ≤ e.start_time && e.start_time ≤ hi) ||
  (match e.end_time with
   | some t => lo ≤ t && t ≤ hi
   | none => false) ||
  (e.start_time < lo &&
    (match e.end_time with
     | some t => hi < t
     | none => true))

/-- `FROM work_entries e JOIN projects p ON e.project_id = p.id`: one row per
entry/project pair with matching id (inner join — entries whose project id
matches no project produce no row). -/
def joinedRows (db : DB) : List (WorkEntry × Project) :=
  db.work_entries.flatMap
    (fun e => (db.projects.filter (fun p => p.id == e.project_id)).map (fun p => (e, p)))

/-- `Database.get_entries_for_day`: bounds are
`datetime.combine(day, datetime.min.time())` and
`datetime.combine(day, datetime.max.time())`; rows filtered by the shared
`WHERE` clause and ordered by `e.start_time`. -/
def get_entries_for_day (db : DB) (day : ℤ) : List (WorkEntry × Project) :=
  let start_of_day := combineDT day 0
  let end_of_day := combineDT day usDayMax
  ((joinedRows db).filter (fun r => entryMatchesRange start_of_day end_of_day r.1)).mergeSort
    (fun a b => decide (a.1.start_time ≤ b.1.start_time))

end Database

/-- `date_in_week - timedelta(days=date_in_week.weekday())`: the Monday of the
ISO week containing `d` (computed identically in `db.get_entries_for_week` and
`cli._show_week_report`). -/
def startOfWeek (d : ℤ) : ℤ := d - pyWeekday d

namespace Database

/-- `Database.get_entries_for_week`: bounds run from Monday of the week
containing `date_in_week` (at `datetime.min.time()`) through Monday + 6 days
(at `datetime.max.time()`), with the same `WHERE` clause and ordering as the
day query. -/
def get_entries_for_week (db : DB) (date_in_week : ℤ) : List (WorkEntry × Project) :=
  let start_of_week := startOfWeek date_in_week
  let end_of_week := start_of_week + 6
  let start_datetime := combineDT start_of_week 0
  let end_datetime := combineDT end_of_week usDayMax
  ((joinedRows db).filter (fun r => entryMatchesRange start_datetime end_datetime r.1)).mergeSort
    (fun a b => decide (a.1.start_time ≤ b.1.start_time))

end Database

/-- The day/period membership condition as the specification states it: the
entry's start lies within the inclusive `[lo, hi]` bounds, or its end does, or
the entry starts before the period and either ends after it or is still
active. -/
def specOverlap (lo hi : ℤ) (e : WorkEntry) : Prop :=
  (lo ≤ e.start_time ∧ e.start_time ≤ hi) ∨
  (∃ t, e.end_time = some t ∧ lo ≤ t ∧ t ≤ hi) ∨
  (e.start_time < lo ∧ ((∃ t, e.end_time = some t ∧ hi < t) ∨ e.end_time = none))

theorem specOverlap_iff_entryMatchesRange (lo hi : ℤ) (e : WorkEntry) :
    specOverlap lo hi e ↔ Database.entryMatchesRange lo hi e = true := by
  unfold specOverlap Database.entryMatchesRange
  cases e.end_time
  · simp
  · simp
    tauto

theorem mem_joinedRows (db : DB) (e : WorkEntry) (p : Project) :
    (e, p) ∈ Database.joinedRows db ↔
      e ∈ db.work_entries ∧ p ∈ db.projects ∧ p.id = e.project_id := by
  simp [Database.joinedRows, List.mem_flatMap, List.mem_filter, List.mem_map]

theorem mem_rangeQuery (db : DB) (lo hi : ℤ) (e : WorkEntry) (he : e ∈ db.work_entries) :
    (∃ p, (e, p) ∈
        ((Database.joinedRows db).filter
            (fun r => Database.entryMatchesRange lo hi r.1)).mergeSort
          (fun a b => decide (a.1.start_time ≤ b.1.start_time))) ↔
      (∃ p ∈ db.projects, p.id = e.project_id) ∧ specOverlap lo hi e := by
  constructor
  · rintro ⟨p, hp⟩
    rw [List.mem_mergeSort, List.mem_filter] at hp
    obtain ⟨hmem, hrange⟩ := hp
    rw [mem_joinedRows] at hmem
    exact ⟨⟨p, hmem.2.1, hmem.2.2⟩, (specOverlap_iff_entryMatchesRange lo hi e).mpr hrange⟩
  · rintro ⟨⟨p, hp, hpid⟩, hov⟩
    refine ⟨p, ?_⟩
    rw [List.mem_mergeSort, List.mem_filter, mem_joinedRows]
    exact ⟨⟨he, hp, hpid⟩, (specOverlap_iff_entryMatchesRange lo hi e).mp hov⟩

/-- **C1** (counterexample). The claim as stated is false: an entry whose
`project_id` matches no stored project (project deletion does not cascade, so
such orphans are reachable) satisfies the overlap condition for its day via
clause (a), yet the inner `JOIN projects` makes the day query return nothing
at all. -/
def orphanEntry : WorkEntry :=
  ⟨1, 1, "task", combineDT 700000 0, some (combineDT 700000 3600000000)⟩

/-- Storage holding `orphanEntry` and no projects. -/
def orphanDB : DB := ⟨[], [orphanEntry], 1, 2⟩

/-- **C1** is falsified at `orphanDB`, day 700000: the entry is stored and the
claim's overlap condition (a) holds for that day, but the day query returns
the empty list, so the entry is not returned. -/
theorem C1_counterexample :
    orphanEntry ∈ orphanDB.work_entries ∧
      specOverlap (combineDT 700000 0) (combineDT 700000 usDayMax) orphanEntry ∧
      Database.get_entries_for_day orphanDB 700000 = [] := by
  refine ⟨by simp [orphanDB], Or.inl ⟨le_refl _, ?_⟩, ?_⟩
  · unfold orphanEntry combineDT usDayMax usPerDay
    norm_num
  · simp [Database.get_entries_for_day, Database.joinedRows, orphanDB]

/-- **C1** (amended). For every stored work entry and every queried day or
week, the entry is returned by the range query if and only if a project with
the entry's `project_id` exists in storage (the query joins on it) **and** the
claimed overlap condition holds: start within bounds, or end within bounds, or
start before the period with end after it or absent. -/
theorem C1_query_membership_amended (db : DB) (d : ℤ) (e : WorkEntry)
    (he : e ∈ db.work_entries) :
    ((∃ p, (e, p) ∈ Database.get_entries_for_day db d) ↔
      (∃ p ∈ db.projects, p.id = e.project_id) ∧
        specOverlap (combineDT d 0) (combineDT d usDayMax) e) ∧
    ((∃ p, (e, p) ∈ Database.get_entries_for_week db d) ↔
      (∃ p ∈ db.projects, p.id = e.project_id) ∧
        specOverlap (combineDT (startOfWeek d) 0) (combineDT (startOfWeek d + 6) usDayMax) e) :=
  ⟨mem_rangeQuery db (combineDT d 0) (combineDT d usDayMax) e he,
   mem_rangeQuery db (combineDT (startOfWeek d) 0) (combineDT (startOfWeek d + 6) usDayMax) e he⟩

/-- A one-project, one-entry storage used to instantiate the membership
theorem. -/
def demoProject : Project := ⟨1, "acme", false, none⟩

/-- An entry for `demoProject` starting at 01:00 on day 700000. -/
def demoEntry : WorkEntry :=
  ⟨1, 1, "task", combineDT 700000 3600000000, some (combineDT 700000 7200000000)⟩

/-- Storage holding `demoProject` and `demoEntry`. -/
def demoDB : DB := ⟨[demoProject], [demoEntry], 2, 2⟩

/-- Witness for `C1_query_membership_amended`: at the concrete storage
`demoDB` and day 700000, the amended membership equivalence produces the
entry in the day query result. -/
theorem C1_query_membership_amended_witness :
    ∃ p, (demoEntry, p) ∈ Database.get_entries_for_day demoDB 700000 :=
  (C1_query_membership_amended demoDB 700000 demoEntry (by simp [demoDB])).1.mpr
    ⟨⟨demoProject, by simp [demoDB], by simp [demoProject, demoEntry]⟩,
     Or.inl (by unfold demoEntry combineDT usDayMax usPerDay; norm_num)⟩

/-- **C8**. For every input day `d`, the week query filters on exactly the
interval from Monday 00:00:00 through Sunday 23:59:59.999999 of the ISO week
containing `d`: the computed week start has weekday index 0 (Monday), the
input day lies within its 7-day window, the upper bound is exactly one
microsecond before the following Monday's midnight, and the query is the
range filter over those bounds (ordered by start time). -/
theorem C8_week_query_bounds (db : DB) (d : ℤ) :
    pyWeekday (startOfWeek d) = 0 ∧
    startOfWeek d ≤ d ∧ d ≤ startOfWeek d + 6 ∧
    combineDT (startOfWeek d + 6) usDayMax = combineDT (startOfWeek d) 0 + 7 * usPerDay - 1 ∧
    Database.get_entries_for_week db d =
      ((Database.joinedRows db).filter
          (fun r => Database.entryMatchesRange (combineDT (startOfWeek d) 0)
            (combineDT (startOfWeek d + 6) usDayMax) r.1)).mergeSort
        (fun a b => decide (a.1.start_time ≤ b.1.start_time)) := by
  refine ⟨?_, ?_, ?_, ?_, rfl⟩
  · simp only [pyWeekday, startOfWeek]
    omega
  · simp only [pyWeekday, startOfWeek]
    omega
  · simp only [pyWeekday, startOfWeek]
    omega
  · unfold combineDT usDayMax usPerDay
    ring

/-! ## CLI layer (`app/cli.py`): session operations and project commands -/

/-- Python `int(s)` on a decimal string: optional sign followed by one or more
ASCII digits; `none` models the `ValueError` caught in `start_work`.  (We do
not model surrounding whitespace or underscore separators, which `int` also
accepts; no claim depends on those inputs.) -/
def pyParseInt (s : String) : Option ℤ :=
  let digitsVal (ds : List Char) : Option ℕ :=
    if ds ≠ [] ∧ ds.all Char.isDigit then
      some (ds.foldl (fun acc c => 10 * acc + (c.toNat - 48)) 0)
    else none
  match s.toList with
  | '-' :: rest => (digitsVal rest).map (fun n => -(n : ℤ))
  | '+' :: rest => (digitsVal rest).map (fun n => (n : ℤ))
  | l => (digitsVal l).map (fun n => (n : ℤ))

/-- `start_work`'s project lookup (cli.py lines 166–178): `int(project)` is
attempted first; when it parses, the reference is looked up **by id only**
(`db.get_project`); only on `ValueError` is it looked up by exact name
(`db.get_project_by_name`). -/
def resolveProjectRef (db : DB) (ref : String) : Option Project :=
  match pyParseInt ref with
  | some i => Database.get_project db i
  | none => Database.get_project_by_name db ref

/-- Outcome of `cli.start_work` as reported to the user. -/
inductive StartResult where
  /-- "Operation cancelled": an active task existed and the user declined to
  stop it. -/
  | cancelled
  /-- "Project '…' not found". -/
  | projectNotFound
  /-- "Started work on …"; carries the new entry's id. -/
  | started (entry_id : ℤ)
deriving DecidableEq, Repr

/-- Outcome of `cli.stop_work` as reported to the user. -/
inductive StopResult where
  /-- "No active work to stop". -/
  | nothingToStop
  /-- "Stopped work on …"; carries the closed entry's id. -/
  | stopped (entry_id : ℤ)
deriving DecidableEq, Repr

/-- The second half of `cli.start_work` (after any conflict with an active
entry is resolved): resolve the project reference and create the new active
entry (`start_time = datetime.now()`, no `end_time`), or report the project
as not found and create nothing. -/
def start_work_create (db : DB) (project description : String) (nowStart : ℤ) :
    StartResult × DB :=
  match resolveProjectRef db project with
  | none => (StartResult.projectNotFound, db)
  | some target =>
      let r := Database.create_work_entry db ⟨0, target.id, description, nowStart, none⟩
      (StartResult.started r.1, r.2)

/-- `cli.start_work`: if an active entry exists, the user chooses
(`confirm_stop`) between closing it at `nowClose` (`datetime.now()` at the
moment of confirmation) and cancelling; afterwards the project reference is
resolved and the new entry created at `nowStart` (a later `datetime.now()`
call). -/
def start_work (db : DB) (project description : String) (confirm_stop : Bool)
    (nowClose nowStart : ℤ) : StartResult × DB :=
  match Database.get_active_work_entry db with
  | some active =>
      if confirm_stop then
        let r := Database.update_work_entry db { active with end_time := some nowClose }
        start_work_create r.2 project description nowStart
      else
        (StartResult.cancelled, db)
  | none => start_work_create db project description nowStart

/-- `cli.stop_work`: close the active entry at `now` if one exists, otherwise
report "No active work to stop" and touch nothing. -/
def stop_work (db : DB) (now : ℤ) : StopResult × DB :=
  match Database.get_active_work_entry db with
  | none => (StopResult.nothingToStop, db)
  | some active =>
      let closed := { active with end_time := some now }
      let r := Database.update_work_entry db closed
      (StopResult.stopped closed.id, r.2)

/-- Outcome of `cli.add_project`. -/
inductive AddProjectResult where
  /-- "Project '…' already exists". -/
  | duplicateName
  /-- "Project '…' added with ID …". -/
  | added (project_id : ℤ)
deriving DecidableEq, Repr

/-- `cli.add_project`: look the name up first and refuse a duplicate;
otherwise insert.  (The `none` arm of the insert models the `UNIQUE`
constraint raising; it is unreachable here because the name check precedes
the insert in this single-process flow.) -/
def add_project (db : DB) (name : String) (hourly : Bool) (rate : Option ℚ) :
    AddProjectResult × DB :=
  if (Database.get_project_by_name db name).isSome then
    (AddProjectResult.duplicateName, db)
  else
    match Database.create_project db ⟨0, name, hourly, rate⟩ with
    | some (pid, db') => (AddProjectResult.added pid, db')
    | none => (AddProjectResult.duplicateName, db)

/-! ## Session state machine: reachable states (claim C2) -/

/-- One user-level session operation with the timestamps and interactive
choice it consumes. -/
inductive SessionOp where
  | start (project description : String) (confirm_stop : Bool) (nowClose nowStart : ℤ)
  | stop (now : ℤ)

/-- Apply one session operation to storage. -/
def applySessionOp (db : DB) : SessionOp → DB
  | SessionOp.start p d c n1 n2 => (start_work db p d c n1 n2).2
  | SessionOp.stop n => (stop_work db n).2

/-- Run a sequence of session operations. -/
def runSession (db : DB) (ops : List SessionOp) : DB :=
  ops.foldl applySessionOp db

/-- Number of active entries (absent `end_time`) in storage. -/
def activeCount (db : DB) : ℕ :=
  (db.work_entries.filter (fun e => e.end_time.isNone)).length

/-- Fresh storage: arbitrary pre-existing projects, no work entries. -/
def initDB (projects : List Project) (next_project_id next_entry_id : ℤ) : DB :=
  ⟨projects, [], next_project_id, next_entry_id⟩

theorem eq_of_mem_of_length_le_one {α : Type*} {l : List α} (h : l.length ≤ 1)
    {a b : α} (ha : a ∈ l) (hb : b ∈ l) : a = b := by
  match l, h with
  | [x], _ =>
    rw [List.mem_singleton] at ha hb
    rw [ha, hb]

theorem filter_active_close_map (l : List WorkEntry) (i : ℤ) (c : WorkEntry)
    (hc : c.end_time.isNone = false) :
    (l.map (fun x => if x.id == i then c else x)).filter (fun e => e.end_time.isNone)
      = l.filter (fun x => x.end_time.isNone && !(x.id == i)) := by
  induction l with
  | nil => rfl
  | cons a t ih =>
    simp only [List.map_cons, List.filter_cons, beq_iff_eq] at ih ⊢
    by_cases h : a.id = i
    · simp [h, hc, ih]
    · simp [h, ih]

/-- Closing the entry returned by `get_active_work_entry` leaves no active
entry, provided at most one was active. -/
theorem activeCount_close (db : DB) (e : WorkEntry) (n : ℤ)
    (hfind : Database.get_active_work_entry db = some e)
    (hinv : activeCount db ≤ 1) :
    activeCount (Database.update_work_entry db { e with end_time := some n }).2 = 0 := by
  have hfind' : db.work_entries.find? (fun x => x.end_time.isNone) = some e := hfind
  have he_mem : e ∈ db.work_entries := List.mem_of_find?_eq_some hfind'
  have he_act : e.end_time.isNone = true := by
    have h := List.find?_some hfind'
    simpa using h
  show ((db.work_entries.map
      (fun x => if x.id == e.id then { e with end_time := some n } else x)).filter
        (fun x => x.end_time.isNone)).length = 0
  rw [filter_active_close_map db.work_entries e.id _ (by simp), List.length_eq_zero,
    List.filter_eq_nil_iff]
  intro x hx hpass
  simp only [Bool.and_eq_true, Bool.not_eq_true', beq_eq_false_iff_ne] at hpass
  obtain ⟨hxact, hxne⟩ := hpass
  have hx' : x ∈ db.work_entries.filter (fun e => e.end_time.isNone) :=
    List.mem_filter.mpr ⟨hx, hxact⟩
  have he' : e ∈ db.work_entries.filter (fun e => e.end_time.isNone) :=
    List.mem_filter.mpr ⟨he_mem, he_act⟩
  exact hxne (congrArg WorkEntry.id (eq_of_mem_of_length_le_one hinv hx' he'))

/-- Creating an entry adds one active entry when its `end_time` is absent. -/
theorem activeCount_create (db : DB) (e : WorkEntry) :
    activeCount (Database.create_work_entry db e).2
      = activeCount db + (if e.end_time.isNone then 1 else 0) := by
  unfold activeCount Database.create_work_entry
  by_cases h : e.end_time.isNone <;> simp [List.filter_append, h]

theorem activeCount_eq_zero_of_no_active (db : DB)
    (h : Database.get_active_work_entry db = none) : activeCount db = 0 := by
  unfold Database.get_active_work_entry at h
  rw [List.find?_eq_none] at h
  unfold activeCount
  rw [List.length_eq_zero, List.filter_eq_nil_iff]
  exact fun a ha => by simpa using h a ha

theorem activeCount_start_work_create_le (db : DB) (p d : String) (n : ℤ)
    (h : activeCount db = 0) :
    activeCount (start_work_create db p d n).2 ≤ 1 := by
  unfold start_work_create
  cases hres : resolveProjectRef db p with
  | none => simp [h]
  | some t => simp [activeCount_create, h]

/-- One session operation preserves the single-active-session invariant. -/
theorem activeCount_step (db : DB) (op : SessionOp) (hinv : activeCount db ≤ 1) :
    activeCount (applySessionOp db op) ≤ 1 := by
  cases op with
  | stop n =>
    unfold applySessionOp stop_work
    cases hfind : Database.get_active_work_entry db with
    | none => simpa
    | some e => simp [activeCount_close db e n hfind hinv]
  | start p d c n1 n2 =>
    unfold applySessionOp start_work
    cases hfind : Database.get_active_work_entry db with
    | none =>
      have h0 := activeCount_eq_zero_of_no_active db hfind
      simpa using activeCount_start_work_create_le db p d n2 h0
    | some e =>
      by_cases hc : c
      · have h0 := activeCount_close db e n1 hfind hinv
        simpa [hc] using activeCount_start_work_create_le _ p d n2 h0
      · simpa [hc] using hinv

theorem activeCount_runSession_le (ops : List SessionOp) (db : DB)
    (hinv : activeCount db ≤ 1) : activeCount (runSession db ops) ≤ 1 := by
  induction ops generalizing db with
  | nil => simpa [runSession]
  | cons op t ih =>
    rw [runSession, List.foldl_cons]
    exact ih _ (activeCount_step db op hinv)

/-- **C2**. In every state reachable from fresh storage (any pre-existing
projects, no entries) by any sequence of `start` and `stop` operations — each
`start` resolving a conflict with an active entry by either closing it at the
current timestamp or aborting — at most one work entry with absent `end_time`
exists in storage. -/
theorem C2_single_active_session (projects : List Project) (npid neid : ℤ)
    (ops : List SessionOp) :
    activeCount (runSession (initDB projects npid neid) ops) ≤ 1 :=
  activeCount_runSession_le ops _ (by simp [initDB, activeCount])

/-- **C7**. Calling `stop` when no active entry exists returns the
"nothing to stop" result — not an error — and returns the storage state
unchanged (projects and work entries untouched). -/
theorem C7_stop_when_idle (db : DB) (now : ℤ)
    (h : Database.get_active_work_entry db = none) :
    stop_work db now = (StopResult.nothingToStop, db) := by
  unfold stop_work
  rw [h]

/-- Witness for `C7_stop_when_idle` at a concrete idle storage state. -/
theorem C7_stop_when_idle_witness :
    stop_work (initDB [demoProject] 2 1) 12345 =
      (StopResult.nothingToStop, initDB [demoProject] 2 1) :=
  C7_stop_when_idle (initDB [demoProject] 2 1) 12345 rfl

/-- **C9**. Creating a project whose name is already taken fails with the
duplicate-name result and leaves storage unchanged: no project is added. -/
theorem C9_duplicate_project_name (db : DB) (name : String) (hourly : Bool)
    (rate : Option ℚ) (p : Project) (hp : p ∈ db.projects) (hname : p.name = name) :
    add_project db name hourly rate = (AddProjectResult.duplicateName, db) := by
  unfold add_project
  have hsome : (Database.get_project_by_name db name).isSome := by
    unfold Database.get_project_by_name
    rw [List.find?_isSome]
    exact ⟨p, hp, by simp [hname]⟩
  rw [if_pos hsome]

/-- Witness for `C9_duplicate_project_name`: adding a second "acme" to a
storage that already holds one is refused and changes nothing. -/
theorem C9_duplicate_project_name_witness :
    add_project (initDB [demoProject] 2 1) "acme" true (some 10) =
      (AddProjectResult.duplicateName, initDB [demoProject] 2 1) :=
  C9_duplicate_project_name (initDB [demoProject] 2 1) "acme" true (some 10)
    demoProject (by simp [initDB]) rfl

/-- A project literally named "42" (no project has id 42). -/
def projNamed42 : Project := ⟨1, "42", false, none⟩

/-- Storage holding only `projNamed42`. -/
def db42 : DB := ⟨[projNamed42], [], 2, 1⟩

/-- **C1**-style falsification of **C4**: the input "42" parses as an integer,
no project with id 42 exists, and a project named "42" does exist — yet
`start` fails with project-not-found: the code never falls back to name
matching once the input parses as an integer, contrary to the claim's
"otherwise the reference is resolved by exact name match". -/
theorem C4_counterexample :
    Database.get_project_by_name db42 "42" = some projNamed42 ∧
    resolveProjectRef db42 "42" = none ∧
    start_work db42 "42" "task" false 0 0 = (StartResult.projectNotFound, db42) := by
  refine ⟨by decide, by decide, by decide⟩

/-- **C4** (amended). Project resolution for `start`: when the reference
parses as an integer it is resolved **by id only** (an integer input whose id
does not exist fails without any name fallback); only a non-integer input is
resolved by exact name match.  When resolution fails, the operation reports
project-not-found (or was already cancelled by the user at the
active-conflict prompt) and creates no work entry. -/
theorem C4_project_resolution_amended (db : DB) (ref desc : String) (c : Bool)
    (n1 n2 : ℤ) :
    (∀ i, pyParseInt ref = some i →
      resolveProjectRef db ref = Database.get_project db i) ∧
    (pyParseInt ref = none →
      resolveProjectRef db ref = Database.get_project_by_name db ref) ∧
    (resolveProjectRef db ref = none →
      ((start_work db ref desc c n1 n2).1 = StartResult.projectNotFound ∨
        (start_work db ref desc c n1 n2).1 = StartResult.cancelled) ∧
      (start_work db ref desc c n1 n2).2.work_entries.length = db.work_entries.length) := by
  refine ⟨fun i hi => by unfold resolveProjectRef; rw [hi], fun hn => by
    unfold resolveProjectRef; rw [hn], fun hres => ?_⟩
  unfold start_work
  cases hfind : Database.get_active_work_entry db with
  | none =>
    unfold start_work_create
    rw [hres]
    exact ⟨Or.inl rfl, rfl⟩
  | some active =>
    by_cases hc : c
    · have hres' : resolveProjectRef
          (Database.update_work_entry db { active with end_time := some n1 }).2 ref
          = none := hres
      simp only [hc, if_true]
      unfold start_work_create
      rw [hres']
      exact ⟨Or.inl rfl, by simp [Database.update_work_entry]⟩
    · simp only [hc, if_false]
      exact ⟨Or.inr rfl, rfl⟩

/-- Witness for `C4_project_resolution_amended`: at `db42`, the integer input
"1" resolves by id, the non-integer input "acme" resolves by name, and the
unresolvable integer input "7" leaves the entry table empty without a
started result. -/
theorem C4_project_resolution_amended_witness :
    resolveProjectRef db42 "1" = Database.get_project db42 1 ∧
    resolveProjectRef db42 "acme" = Database.get_project_by_name db42 "acme" ∧
    (((start_work db42 "7" "t" false 0 0).1 = StartResult.projectNotFound ∨
        (start_work db42 "7" "t" false 0 0).1 = StartResult.cancelled) ∧
      (start_work db42 "7" "t" false 0 0).2.work_entries.length =
        db42.work_entries.length) :=
  ⟨(C4_project_resolution_amended db42 "1" "t" false 0 0).1 1 (by decide),
   (C4_project_resolution_amended db42 "acme" "t" false 0 0).2.1 (by decide),
   (C4_project_resolution_amended db42 "7" "t" false 0 0).2.2 (by decide)⟩

/-! ## Report aggregator (`cli._show_day_report`, `cli._show_week_report`)

Both reports receive the list of `(entry, project)` rows returned by the
range query and group them by `project.id` (the weekly report additionally by
`entry.start_time.date()`).  Dict iteration visits each stored row exactly
once, so each accumulated total is a sum over the corresponding filtered
rows.  (Python dicts iterate in first-insertion order while `List.dedup`
keeps last occurrences; no claim here depends on the iteration order of the
groups, only on their contents.) -/

/-- What one entry adds to an hours total:
`if entry.duration_hours: total += entry.duration_hours` — an entry with a
falsy `duration_hours` (active, or zero-length) adds nothing. -/
def entryContribution (e : WorkEntry) : ℚ :=
  if optTruthy e.duration_hours then e.duration_hours.getD 0 else 0

/-- The Hours cell of a report row:
`f"{entry.duration_hours:.2f}" if entry.duration_hours else "N/A"` — `none`
stands for the "N/A" marker, `some h` for the formatted hours. -/
def reportHoursCell (e : WorkEntry) : Option ℚ :=
  if optTruthy e.duration_hours then e.duration_hours else none

/-- Group keys in report order: the distinct `project.id`s of the rows. -/
def reportProjectIds (pairs : List (WorkEntry × Project)) : List ℤ :=
  (pairs.map (fun r => r.2.id)).dedup

/-- Daily report per-project total (`project_hours[project_id]`): sum of the
contributions of the project's rows. -/
def projectHoursDay (pairs : List (WorkEntry × Project)) (pid : ℤ) : ℚ :=
  ((pairs.filter (fun r => r.2.id == pid)).map (fun r => entryContribution r.1)).sum

/-- Daily report grand total (`total_hours`): every row lands in exactly one
project group, so the accumulated total is the sum over all rows. -/
def totalHoursDay (pairs : List (WorkEntry × Project)) : ℚ :=
  (pairs.map (fun r => entryContribution r.1)).sum

/-- Weekly report day bucket for one project
(`entries_by_project[project.id][entry_date]`): rows of the project whose
`start_time.date()` is the given day, summed by contribution.  A day with no
rows displays "-" and stands for a zero bucket. -/
def weekDayBucket (pairs : List (WorkEntry × Project)) (pid d : ℤ) : ℚ :=
  (((pairs.filter (fun r => r.2.id == pid)).filter
      (fun r => dateOfTime r.1.start_time == d)).map (fun r => entryContribution r.1)).sum

/-- The distinct start dates of a project's rows — the keys of its inner
date dict in `entries_by_project`. -/
def projectDates (pairs : List (WorkEntry × Project)) (pid : ℤ) : List ℤ :=
  ((pairs.filter (fun r => r.2.id == pid)).map (fun r => dateOfTime r.1.start_time)).dedup

/-- Weekly report per-project total (`project_hours[project_id]`): the code
accumulates `day_total` over the project's date groups — i.e. over **all**
start dates appearing in the query result, whether or not they lie in the
Monday–Sunday window. -/
def projectHoursWeek (pairs : List (WorkEntry × Project)) (pid : ℤ) : ℚ :=
  ((projectDates pairs pid).map (fun d => weekDayBucket pairs pid d)).sum

/-- Weekly report grand total (`total_hours`): each row lands in exactly one
(project, date) group and its contribution is accumulated once, so the grand
total is the sum over all rows. -/
def totalHoursWeek (pairs : List (WorkEntry × Project)) : ℚ :=
  (pairs.map (fun r => entryContribution r.1)).sum

theorem sum_map_ite_eq {κ : Type*} [DecidableEq κ] (K : List κ) (k : κ)
    (hK : K.Nodup) (hk : k ∈ K) (v : ℚ) :
    (K.map (fun j => if k = j then v else 0)).sum = v := by
  induction K with
  | nil => simp at hk
  | cons a t ih =>
    rw [List.map_cons, List.sum_cons]
    rcases List.mem_cons.mp hk with h | h
    · rw [← h, if_pos rfl]
      have hz : ∀ x ∈ t.map (fun j => if k = j then v else 0), x = 0 := by
        intro x hx
        obtain ⟨j, hj, hxj⟩ := List.mem_map.mp hx
        rw [← hxj, if_neg]
        intro he
        exact (List.nodup_cons.mp hK).1 (h ▸ he ▸ hj)
      rw [List.sum_eq_zero hz, add_zero]
    · rw [if_neg, ih (List.nodup_cons.mp hK).2 h, zero_add]
      intro he
      exact (List.nodup_cons.mp hK).1 (he ▸ h)

/-- Summing group sums over a duplicate-free list of keys that covers every
element's key recovers the flat sum. -/
theorem sum_fiberwise_list {α κ : Type*} [DecidableEq κ] (l : List α) (key : α → κ)
    (v : α → ℚ) (K : List κ) (hK : K.Nodup) (hcov : ∀ x ∈ l, key x ∈ K) :
    (K.map (fun k => ((l.filter (fun x => key x == k)).map v).sum)).sum
      = (l.map v).sum := by
  induction l with
  | nil => simp
  | cons a t ih =>
    have hcov' : ∀ x ∈ t, key x ∈ K := fun x hx => hcov x (List.mem_cons_of_mem a hx)
    have hsplit : ∀ k, (((a :: t).filter (fun x => key x == k)).map v).sum
        = (if key a = k then v a else 0)
          + ((t.filter (fun x => key x == k)).map v).sum := by
      intro k
      by_cases h : key a = k
      · simp [List.filter_cons, h]
      · simp [List.filter_cons, h]
    rw [List.map_cons, List.sum_cons, ← ih hcov']
    calc (K.map (fun k => (((a :: t).filter (fun x => key x == k)).map v).sum)).sum
        = (K.map (fun k => (if key a = k then v a else 0)
            + ((t.filter (fun x => key x == k)).map v).sum)).sum := by
          simp only [hsplit]
      _ = (K.map (fun k => if key a = k then v a else 0)).sum
            + (K.map (fun k => ((t.filter (fun x => key x == k)).map v).sum)).sum := by
          rw [← List.sum_map_add]
      _ = v a + (K.map (fun k => ((t.filter (fun x => key x == k)).map v).sum)).sum := by
          rw [sum_map_ite_eq K (key a) hK (hcov a (List.mem_cons_self a t))]

/-- The weekly per-project total accumulated over the project's date groups
equals the flat sum over the project's rows: each row lands in exactly one
date group. -/
theorem projectHoursWeek_eq_flat (pairs : List (WorkEntry × Project)) (pid : ℤ) :
    projectHoursWeek pairs pid
      = ((pairs.filter (fun r => r.2.id == pid)).map (fun r => entryContribution r.1)).sum := by
  unfold projectHoursWeek weekDayBucket projectDates
  exact sum_fiberwise_list (pairs.filter (fun r => r.2.id == pid))
    (fun r => dateOfTime r.1.start_time) (fun r => entryContribution r.1) _
    (List.nodup_dedup _)
    (fun x hx => List.mem_dedup.mpr (List.mem_map.mpr ⟨x, hx, rfl⟩))

/-- **C3** (counterexample).  An entry spanning Sunday 23:00 → Monday 01:00 is
returned by the week query for the later week (its `end_time` lies inside the
bounds), but its start date — the bucketing key — is the Sunday *before* that
week's Monday (ordinal 8).  Its 2 hours are accumulated into the project's
weekly total while all 7 displayed day buckets stay empty, so the weekly
total (2) differs from the sum of the 7 daily buckets (0). -/
def spanProject : Project := ⟨1, "span", false, none⟩

/-- Entry from day 7 (a Sunday) 23:00 to day 8 (a Monday) 01:00. -/
def spanEntry : WorkEntry :=
  ⟨1, 1, "overnight", combineDT 7 82800000000, some (combineDT 8 3600000000)⟩

/-- Storage holding `spanProject` and `spanEntry`. -/
def spanDB : DB := ⟨[spanProject], [spanEntry], 2, 2⟩

/-- The week query result for day 8's week at `spanDB`. -/
def spanPairs : List (WorkEntry × Project) := [(spanEntry, spanProject)]

/-- `days_in_week = [(start_of_week + timedelta(days=i)) for i in range(7)]`:
the seven Monday-through-Sunday day columns of the weekly report. -/
def weekWindow (monday : ℤ) : List ℤ :=
  [monday, monday + 1, monday + 2, monday + 3, monday + 4, monday + 5, monday + 6]

/-- **C3** is falsified on the week of day 8 at `spanDB`: the query returns
the spanning entry, its project's weekly total is 2 hours, yet the seven
Monday-through-Sunday day buckets sum to 0. -/
theorem C3_counterexample :
    Database.get_entries_for_week spanDB 8 = spanPairs ∧
    projectHoursWeek spanPairs 1 = 2 ∧
    ((weekWindow (startOfWeek 8)).map (fun d => weekDayBucket spanPairs 1 d)).sum = 0 := by
  refine ⟨?_, ?_, ?_⟩
  case refine_2 =>
    norm_num [projectHoursWeek, projectDates, weekDayBucket, spanPairs, spanEntry,
      spanProject, entryContribution, optTruthy, WorkEntry.duration_hours,
      WorkEntry.duration, dateOfTime, combineDT, usPerDay]
  case refine_3 =>
    norm_num [weekWindow, startOfWeek, pyWeekday, weekDayBucket, spanPairs, spanEntry,
      spanProject, entryContribution, optTruthy, WorkEntry.duration_hours,
      WorkEntry.duration, dateOfTime, combineDT, usPerDay]
  have h2 : Database.get_entries_for_week spanDB 8
      = ((Database.joinedRows spanDB).filter (fun r =>
          Database.entryMatchesRange (combineDT (startOfWeek 8) 0)
            (combineDT (startOfWeek 8 + 6) usDayMax) r.1)).mergeSort
          (fun a b => decide (a.1.start_time ≤ b.1.start_time)) := rfl
  have h1 : (Database.joinedRows spanDB).filter (fun r =>
      Database.entryMatchesRange (combineDT (startOfWeek 8) 0)
        (combineDT (startOfWeek 8 + 6) usDayMax) r.1) = spanPairs := by decide
  rw [h2, h1]
  exact List.perm_singleton.mp (List.mergeSort_perm spanPairs _)

/-- **C3** (amended).  In the weekly report, each project's weekly total
equals the sum of its 7 Monday-through-Sunday day buckets **provided** every
returned row's start date lies within that window (rows admitted by the
overlap rule whose start date falls outside the window — boundary-spanning or
long-running entries — are counted in the weekly total but in no displayed
bucket).  Unconditionally, the grand total equals the sum of all projects'
weekly totals. -/
theorem C3_week_totals_amended (pairs : List (WorkEntry × Project)) (monday pid : ℤ) :
    ((∀ r ∈ pairs, monday ≤ dateOfTime r.1.start_time ∧
        dateOfTime r.1.start_time ≤ monday + 6) →
      projectHoursWeek pairs pid
        = ((weekWindow monday).map (fun d => weekDayBucket pairs pid d)).sum) ∧
    totalHoursWeek pairs
      = ((reportProjectIds pairs).map (fun q => projectHoursWeek pairs q)).sum := by
  constructor
  · intro hin
    rw [projectHoursWeek_eq_flat]
    refine (sum_fiberwise_list (pairs.filter (fun r => r.2.id == pid))
      (fun r => dateOfTime r.1.start_time) (fun r => entryContribution r.1)
      (weekWindow monday) ?_ ?_).symm
    · simp [weekWindow]
    · intro x hx
      obtain ⟨hd1, hd2⟩ := hin x (List.mem_of_mem_filter hx)
      simp only [weekWindow, List.mem_cons, List.not_mem_nil, or_false]
      omega
  · unfold totalHoursWeek reportProjectIds
    have hrw : ∀ q, projectHoursWeek pairs q
        = ((pairs.filter (fun r => r.2.id == q)).map (fun r => entryContribution r.1)).sum :=
      projectHoursWeek_eq_flat pairs
    simp only [hrw]
    exact (sum_fiberwise_list pairs (fun r => r.2.id) (fun r => entryContribution r.1) _
      (List.nodup_dedup _)
      (fun x hx => List.mem_dedup.mpr (List.mem_map.mpr ⟨x, hx, rfl⟩))).symm

/-- In-window project and one-hour Tuesday entry used to instantiate the
amended weekly-totals theorem. -/
def wkProject : Project := ⟨1, "wk", false, none⟩

/-- A one-hour entry on day 9 (the Tuesday of the week starting day 8). -/
def wkEntry : WorkEntry := ⟨1, 1, "w", combineDT 9 0, some (combineDT 9 3600000000)⟩

/-- Week-report rows holding only `wkEntry`. -/
def wkPairs : List (WorkEntry × Project) := [(wkEntry, wkProject)]

/-- Witness for `C3_week_totals_amended` at `wkPairs` with Monday = day 8:
the window hypothesis is discharged by evaluation and both identities hold. -/
theorem C3_week_totals_amended_witness :
    projectHoursWeek wkPairs 1
        = ((weekWindow 8).map (fun d => weekDayBucket wkPairs 1 d)).sum ∧
    totalHoursWeek wkPairs
        = ((reportProjectIds wkPairs).map (fun q => projectHoursWeek wkPairs q)).sum :=
  ⟨(C3_week_totals_amended wkPairs 8 1).1 (by decide),
   (C3_week_totals_amended wkPairs 8 1).2⟩

/-- **C5** (counterexample).  A completed entry whose `end_time` equals its
`start_time`: `(end_time - start_time)` in seconds / 3600 is `0.0`, but
`duration_hours` is `None` — the zero `timedelta` is falsy in
`if self.duration:`. -/
def zeroEntry : WorkEntry := ⟨1, 1, "z", 1000000, some 1000000⟩

/-- **C5** is falsified at `zeroEntry`: both timestamps are present and equal,
and `duration_hours` is absent rather than the claimed `0`. -/
theorem C5_counterexample :
    zeroEntry.end_time = some zeroEntry.start_time ∧
    zeroEntry.duration_hours = none ∧ zeroEntry.duration_hours ≠ some 0 := by decide

/-- **C5** (amended).  For every completed entry whose `end_time` differs
from its `start_time`, `duration_hours` equals `(end_time - start_time)` in
seconds (microseconds / 10⁶) divided by 3600, exactly; a zero-length
completed entry instead has `duration_hours` absent. -/
theorem C5_duration_hours_amended (e : WorkEntry) (t : ℤ)
    (he : e.end_time = some t) (hne : t ≠ e.start_time) :
    e.duration_hours = some ((t - e.start_time : ℚ) / 1000000 / 3600) := by
  simp only [WorkEntry.duration_hours, WorkEntry.duration, he]
  rw [if_neg (by omega)]
  congr 1
  push_cast
  ring

/-- Witness for `C5_duration_hours_amended`: `demoEntry` lasts one hour and
its `duration_hours` evaluates accordingly. -/
theorem C5_duration_hours_amended_witness :
    demoEntry.duration_hours
      = some ((combineDT 700000 7200000000 - demoEntry.start_time : ℚ) / 1000000 / 3600) :=
  C5_duration_hours_amended demoEntry (combineDT 700000 7200000000) rfl (by decide)

/-- **C10**.  A completed entry of exactly zero length has `duration_hours`
absent (not `0.0`), contributes zero to every report total, and its report
Hours cell is the "N/A" marker — exactly the cell an active entry gets. -/
theorem C10_zero_duration_like_active (e : WorkEntry)
    (h : e.end_time = some e.start_time) :
    e.duration_hours = none ∧ entryContribution e = 0 ∧ reportHoursCell e = none ∧
      reportHoursCell { e with end_time := none } = none := by
  have hd : e.duration_hours = none := by
    simp [WorkEntry.duration_hours, WorkEntry.duration, h]
  refine ⟨hd, ?_, ?_, ?_⟩
  · unfold entryContribution
    rw [hd]
    rfl
  · unfold reportHoursCell
    rw [hd]
    rfl
  · rfl

/-- Witness for `C10_zero_duration_like_active` at the concrete `zeroEntry`. -/
theorem C10_zero_duration_like_active_witness :
    zeroEntry.duration_hours = none ∧ entryContribution zeroEntry = 0 ∧
      reportHoursCell zeroEntry = none ∧
      reportHoursCell { zeroEntry with end_time := none } = none :=
  C10_zero_duration_like_active zeroEntry rfl

/-! ## Billing (`_show_day_report` lines 342–347, `_show_week_report` 441–453)

`amount = Decimal(str(project_hours[project_id])) * project.hour_rate`: the
float hours total is converted to `Decimal` via its shortest decimal
representation and multiplied once by the rate; both are exact rationals
here.  `none` means no billing line is printed. -/

/-- Day-report billing: guarded by
`if project.is_billed_hourly and project.hour_rate:` — a `Decimal` zero rate
is falsy, so it suppresses the line just like an absent rate. -/
def dayReportBilling (p : Project) (project_hours : ℚ) : Option ℚ :=
  if p.is_billed_hourly && optTruthy p.hour_rate then
    some (project_hours * p.hour_rate.getD 0)
  else none

/-- Week-report billing: same guard plus `project_hours[project_id] > 0`. -/
def weekReportBilling (p : Project) (project_hours : ℚ) : Option ℚ :=
  if p.is_billed_hourly && optTruthy p.hour_rate && decide (0 < project_hours) then
    some (project_hours * p.hour_rate.getD 0)
  else none

/-- An hourly project billed at rate 50. -/
def hourlyP50 : Project := ⟨1, "fifty", true, some 50⟩

/-- An hourly project whose rate is present but zero. -/
def freeRateP : Project := ⟨2, "freerate", true, some 0⟩

/-- A still-active entry for `hourlyP50` on day 9. -/
def activeOnlyEntry : WorkEntry := ⟨1, 1, "a", combineDT 9 0, none⟩

/-- Week-report rows holding only the active entry. -/
def activePairs : List (WorkEntry × Project) := [(activeOnlyEntry, hourlyP50)]

/-- **C6** is falsified twice: (i) in the weekly report, an hourly project
with a present nonzero rate whose weekly total is 0 (its only entry is still
active) gets **no** billing amount, where the claim demands `0 × 50`; (ii) in
the day report, a present rate of 0 is falsy and suppresses the billing line,
where the claim demands `3 × 0`. -/
theorem C6_counterexample :
    (hourlyP50.is_billed_hourly = true ∧ hourlyP50.hour_rate = some 50 ∧
      projectHoursWeek activePairs 1 = 0 ∧
      weekReportBilling hourlyP50 (projectHoursWeek activePairs 1) = none) ∧
    (freeRateP.is_billed_hourly = true ∧ freeRateP.hour_rate = some 0 ∧
      dayReportBilling freeRateP 3 = none) := by
  have h0 : projectHoursWeek activePairs 1 = 0 := by
    norm_num [projectHoursWeek, projectDates, weekDayBucket, activePairs,
      activeOnlyEntry, hourlyP50, entryContribution, optTruthy,
      WorkEntry.duration_hours, WorkEntry.duration, dateOfTime, combineDT, usPerDay]
  refine ⟨⟨rfl, rfl, h0, ?_⟩, rfl, rfl, ?_⟩
  · rw [h0]
    norm_num [weekReportBilling, hourlyP50, optTruthy]
  · norm_num [dayReportBilling, freeRateP, optTruthy]

/-- **C6** (amended).  For a project with `is_billed_hourly` and a present
**nonzero** `hour_rate`, the day report's billing amount is exactly the
project's total hours times the rate (hours converted exactly to decimal
before the single multiplication), and the week report's is too **provided**
the weekly total is positive — a zero weekly total suppresses the weekly
billing line.  A project that is not billed hourly, has no rate, or has a
(falsy) zero rate gets no billing amount in either report. -/
theorem C6_billing_amended (pairs : List (WorkEntry × Project)) (p : Project) (r : ℚ) :
    (p.hour_rate = some r → p.is_billed_hourly = true → r ≠ 0 →
      dayReportBilling p (projectHoursDay pairs p.id)
          = some (projectHoursDay pairs p.id * r) ∧
      (0 < projectHoursWeek pairs p.id →
        weekReportBilling p (projectHoursWeek pairs p.id)
          = some (projectHoursWeek pairs p.id * r)) ∧
      (¬ 0 < projectHoursWeek pairs p.id →
        weekReportBilling p (projectHoursWeek pairs p.id) = none)) ∧
    ((p.is_billed_hourly = false ∨ p.hour_rate = none ∨ p.hour_rate = some 0) →
      dayReportBilling p (projectHoursDay pairs p.id) = none ∧
      weekReportBilling p (projectHoursWeek pairs p.id) = none) := by
  constructor
  · intro hr hb hne
    refine ⟨?_, fun hpos => ?_, fun hneg => ?_⟩
    · unfold dayReportBilling
      rw [hr, hb]
      simp [optTruthy, hne]
    · unfold weekReportBilling
      rw [hr, hb]
      simp [optTruthy, hne, hpos]
    · unfold weekReportBilling
      rw [hr, hb]
      simp [optTruthy, hne, hneg]
  · intro hcase
    unfold dayReportBilling weekReportBilling
    rcases hcase with hb | hr | hr
    · rw [hb]
      simp
    · rw [hr]
      simp [optTruthy]
    · rw [hr]
      simp [optTruthy]

/-- A two-hour completed entry for `hourlyP50` on day 9. -/
def billEntry : WorkEntry := ⟨1, 1, "b", combineDT 9 0, some (combineDT 9 7200000000)⟩

/-- Report rows holding only `billEntry`. -/
def billPairs : List (WorkEntry × Project) := [(billEntry, hourlyP50)]

/-- Witness for `C6_billing_amended` at `billPairs` (2 billable hours at rate
50): both the day and week billing amounts are `hours * rate`. -/
theorem C6_billing_amended_witness :
    dayReportBilling hourlyP50 (projectHoursDay billPairs hourlyP50.id)
        = some (projectHoursDay billPairs hourlyP50.id * 50) ∧
    weekReportBilling hourlyP50 (projectHoursWeek billPairs hourlyP50.id)
        = some (projectHoursWeek billPairs hourlyP50.id * 50) :=
  ⟨((C6_billing_amended billPairs hourlyP50 50).1 rfl rfl (by norm_num)).1,
   ((C6_billing_amended billPairs hourlyP50 50).1 rfl rfl (by norm_num)).2.1
     (by norm_num [projectHoursWeek, projectDates, weekDayBucket, billPairs,
       billEntry, hourlyP50, entryContribution, optTruthy, WorkEntry.duration_hours,
       WorkEntry.duration, dateOfTime, combineDT, usPerDay])⟩
